import Mathlib

/-!
Shallow embedding of the host-side delay controller
(`delay_control.py`, class `DelayController`): parameter validation,
nanosecond-to-clock-cycle conversion, and the ASCII command protocol for
`set_parameters` and `get_parameter`.  Serial I/O is modelled by passing
the device response text in and returning the list of strings written to
the serial port.
-/

namespace PicoPulse

/-- A Python value supplied in a parameter dictionary: either an `int`,
or some other non-integer value (recorded opaquely by a description),
which the source rejects with its `isinstance(value, int)` check. -/
inductive PValue where
  | int (n : Int)
  | other (desc : String)
deriving DecidableEq

/-- One entry of the `param_constraints` table: inclusive range bounds
and the divider used for the nanosecond-to-clock-cycle conversion. -/
structure Constraint where
  min : Int
  max : Int
  divider : Int
deriving DecidableEq

/-- The `DelayController.param_constraints` table, with the bounds
written exactly as in the source. -/
def param_constraints (key : String) : Option Constraint :=
  if key = "offset" then some ⟨2 * 5, (2 ^ 32 - 1) * 5, 5⟩
  else if key = "length" then some ⟨1 * 5, (2 ^ 7 - 1) * 5, 5⟩
  else if key = "spacing" then some ⟨6 * 6, (2 ^ 20 - 1) * 5, 5⟩
  else if key = "repeats" then some ⟨0, 31, 1⟩
  else none

/-- Removal of leading and trailing whitespace from a character list,
modelling Python `str.strip()` on ASCII text. -/
def pyStripList (cs : List Char) : List Char :=
  ((cs.dropWhile Char.isWhitespace).reverse.dropWhile Char.isWhitespace).reverse

/-- Model of Python `str.strip()`, as applied by the source to every
line read from the serial port (`readline().decode().strip()`). -/
def pyStrip (s : String) : String :=
  ⟨pyStripList s.toList⟩

/-- Errors raised by `set_parameters`: the four `ValueError` sites of the
validation loop, each carrying the offending key, and the `RuntimeError`
raised on a non-OK device response, carrying the stripped response text
and the command string that was sent. -/
inductive SetError where
  | invalidParameter (key : String)
  | invalidType (key : String)
  | outOfRange (key : String) (value : Int)
  | notAligned (key : String) (value : Int)
  | deviceRejected (response : String) (command : String)
deriving DecidableEq

/-- The key named by a `set_parameters` validation error, if any. -/
def errKey : SetError → Option String
  | .invalidParameter k => some k
  | .invalidType k => some k
  | .outOfRange k _ => some k
  | .notAligned k _ => some k
  | .deviceRejected _ _ => none

/-- The validation-and-encoding loop of `DelayController.set_parameters`:
walks the pairs in insertion order, raising at the first invalid pair,
otherwise appending the pair as `<code> <deviceValue> ` (source:
`uart_string += f"{key[0]} {divided_value} "`) to the accumulated
command string.  Python floor division and modulo are `Int.fdiv` and
`Int.fmod`. -/
def validate_and_encode : List (String × PValue) → String → Except SetError String
  | [], acc => .ok acc
  | (key, value) :: rest, acc =>
    match param_constraints key with
    | none => .error (.invalidParameter key)
    | some c =>
      match value with
      | .other _ => .error (.invalidType key)
      | .int v =>
        if ¬ (c.min ≤ v ∧ v ≤ c.max) then .error (.outOfRange key v)
        else if c.divider ≠ 0 ∧ Int.fmod v c.divider ≠ 0 then .error (.notAligned key v)
        else validate_and_encode rest
          (acc ++ String.singleton key.front ++ " " ++ toString (Int.fdiv v c.divider) ++ " ")

/-- Model of `DelayController.set_parameters`.  `response` is the text
the device would answer, as produced by `readline().decode()`; the
second component of the result is the list of strings written to the
serial port.  A validation error is raised before anything is written;
after the write, the stripped response is compared against `OK`. -/
def set_parameters (params : List (String × PValue)) (response : String) :
    Except SetError Unit × List String :=
  match validate_and_encode params "S " with
  | .error e => (.error e, [])
  | .ok uart_string =>
    let resp := pyStrip response
    if resp = "OK" then (.ok (), [uart_string])
    else (.error (.deviceRejected resp uart_string), [uart_string])

/-- Parse a run of ASCII digits with optional single underscores between
digit groups, as accepted by Python `int`.  `acc` is the value consumed
so far; `prevDigit` records whether the previous character was a digit
(an underscore must follow a digit and be followed by one, and the run
must end on a digit). -/
def pyDigitsAux : List Char → Nat → Bool → Option Nat
  | [], acc, prevDigit => if prevDigit then some acc else none
  | ch :: rest, acc, prevDigit =>
    if ch.isDigit then pyDigitsAux rest (acc * 10 + (ch.toNat - 48)) true
    else if ch = '_' && prevDigit then pyDigitsAux rest acc false
    else none

/-- Model of Python `int(s)` on ASCII text: optional surrounding
whitespace, an optional sign, then a nonempty digit run (with optional
underscore separators); `none` models the raised `ValueError`. -/
def pythonInt (s : String) : Option Int :=
  match pyStripList s.toList with
  | '+' :: rest => (pyDigitsAux rest 0 false).map (fun n => (n : Int))
  | '-' :: rest => (pyDigitsAux rest 0 false).map (fun n => -(n : Int))
  | cs => (pyDigitsAux cs 0 false).map (fun n => (n : Int))

/-- Result of `DelayController.get_parameter`: `invalidParameter` models
the raised `ValueError` on an unknown key; `malformed` models the branch
that prints an error naming the stripped response text and then returns
the sentinel `-1`; `value` is a normal return of the parsed integer
multiplied by the divider. -/
inductive GetOutcome where
  | invalidParameter (key : String)
  | malformed (response : String) (returned : Int)
  | value (n : Int)
deriving DecidableEq

/-- Whether a `get_parameter` outcome is a raised exception (as opposed
to a normal return, sentinel included). -/
def getRaises : GetOutcome → Bool
  | .invalidParameter _ => true
  | .malformed _ _ => false
  | .value _ => false

/-- Model of `DelayController.get_parameter`.  `response` is the text
the device would answer; the second component is the list of strings
written to the serial port. -/
def get_parameter (key : String) (response : String) : GetOutcome × List String :=
  match param_constraints key with
  | none => (.invalidParameter key, [])
  | some c =>
    let uart_string := "G " ++ String.singleton key.front
    let resp := pyStrip response
    match pythonInt resp with
    | none => (.malformed resp (-1), [uart_string])
    | some raw => (.value (raw * c.divider), [uart_string])

/-- Validation of one (key, value) pair, with the checks in the order
the source performs them; `none` means the pair is accepted. -/
def pairError (key : String) (value : PValue) : Option SetError :=
  match param_constraints key with
  | none => some (.invalidParameter key)
  | some c =>
    match value with
    | .other _ => some (.invalidType key)
    | .int v =>
      if ¬ (c.min ≤ v ∧ v ≤ c.max) then some (.outOfRange key v)
      else if c.divider ≠ 0 ∧ Int.fmod v c.divider ≠ 0 then some (.notAligned key v)
      else none

/-- Encoding of one accepted pair as appended to the command string. -/
def encodePair (p : String × PValue) : String :=
  match param_constraints p.1, p.2 with
  | some c, .int v =>
      String.singleton p.1.front ++ " " ++ toString (Int.fdiv v c.divider) ++ " "
  | _, _ => ""

/-- Concatenation of a list of strings in order. -/
def joinStrs : List String → String
  | [] => ""
  | s :: rest => s ++ joinStrs rest

/-- The last character of a string, if any. -/
def lastChar (s : String) : Option Char :=
  s.toList.getLast?

/-- One step of the validation loop, phrased through `pairError` and
`encodePair`. -/
theorem validate_step (key : String) (value : PValue)
    (rest : List (String × PValue)) (acc : String) :
    validate_and_encode ((key, value) :: rest) acc =
      match pairError key value with
      | some e => .error e
      | none => validate_and_encode rest (acc ++ encodePair (key, value)) := by
  simp only [validate_and_encode, pairError, encodePair]
  cases hk : param_constraints key with
  | none => rfl
  | some c =>
    cases value with
    | other d => rfl
    | int v =>
      by_cases h1 : ¬ (c.min ≤ v ∧ v ≤ c.max)
      · simp [h1]
      · by_cases h2 : c.divider ≠ 0 ∧ Int.fmod v c.divider ≠ 0
        · simp [h1, h2]
        · simp [h1, h2, String.append_assoc]

/-- Every validation error produced by `pairError` names the key of the
pair it came from. -/
theorem pairError_errKey (key : String) (value : PValue) (e : SetError)
    (h : pairError key value = some e) : errKey e = some key := by
  unfold pairError at h
  split at h
  · cases h; rfl
  · split at h
    · cases h; rfl
    · split at h
      · cases h; rfl
      · split at h
        · cases h; rfl
        · cases h

/-- Inversion of an accepted pair: the key is recognized, the value is
an integer, and it satisfies the range and alignment checks. -/
theorem pairError_none_inv (key : String) (value : PValue)
    (h : pairError key value = none) :
    ∃ c v, param_constraints key = some c ∧ value = PValue.int v ∧
      c.min ≤ v ∧ v ≤ c.max ∧
      ¬ (c.divider ≠ 0 ∧ Int.fmod v c.divider ≠ 0) := by
  cases hk : param_constraints key with
  | none => simp [pairError, hk] at h
  | some c =>
    cases value with
    | other d => simp [pairError, hk] at h
    | int v =>
      simp only [pairError, hk] at h
      refine ⟨c, v, rfl, rfl, ?_⟩
      split at h
      · cases h
      · split at h
        · cases h
        · rename_i h1 h2
          push_neg at h1
          exact ⟨h1.1, h1.2, h2⟩

/-- When every pair is accepted, the loop returns the accumulator
extended with the encodings of the pairs in order. -/
theorem validate_ok (params : List (String × PValue)) (acc : String)
    (hok : ∀ p ∈ params, pairError p.1 p.2 = none) :
    validate_and_encode params acc = .ok (acc ++ joinStrs (params.map encodePair)) := by
  induction params generalizing acc with
  | nil => simp [validate_and_encode, joinStrs]
  | cons p rest ih =>
    obtain ⟨key, value⟩ := p
    have hp : pairError key value = none := hok _ (List.mem_cons_self _ _)
    rw [validate_step, hp]
    simp only [List.map_cons, joinStrs]
    rw [ih _ (fun q hq => hok q (List.mem_cons_of_mem _ hq)), String.append_assoc]

/-- When some pair is rejected, the loop raises the error of the first
rejected pair, which is a member of the list. -/
theorem validate_error (params : List (String × PValue)) (acc : String)
    (h : ∃ p ∈ params, (pairError p.1 p.2).isSome = true) :
    ∃ k v e, (k, v) ∈ params ∧ pairError k v = some e ∧
      validate_and_encode params acc = .error e := by
  induction params generalizing acc with
  | nil => simp at h
  | cons p rest ih =>
    obtain ⟨key, value⟩ := p
    cases hp : pairError key value with
    | some e =>
      refine ⟨key, value, e, List.mem_cons_self _ _, hp, ?_⟩
      rw [validate_step, hp]
    | none =>
      have hrest : ∃ q ∈ rest, (pairError q.1 q.2).isSome = true := by
        obtain ⟨q, hq, hqs⟩ := h
        rcases List.mem_cons.mp hq with heq | hmem
        · subst heq; simp [hp] at hqs
        · exact ⟨q, hmem, hqs⟩
      obtain ⟨k, v, e, hmem, he, hval⟩ := ih (acc ++ encodePair (key, value)) hrest
      refine ⟨k, v, e, List.mem_cons_of_mem _ hmem, he, ?_⟩
      rw [validate_step, hp, hval]

/-- Every constraint in the table has a nonzero divider. -/
theorem divider_ne_zero (key : String) (c : Constraint)
    (hc : param_constraints key = some c) : c.divider ≠ 0 := by
  unfold param_constraints at hc
  split at hc
  · cases hc; decide
  · split at hc
    · cases hc; decide
    · split at hc
      · cases hc; decide
      · split at hc
        · cases hc; decide
        · cases hc

/-- Appending a space makes the last character a space. -/
theorem lastChar_append_space (a : String) : lastChar (a ++ " ") = some ' ' := by
  have h : (a ++ " ").data = a.data ++ [' '] := String.data_append a " "
  simp [lastChar, String.toList, h, List.getLast?_concat]

/-- Appending the encodings of accepted pairs to a string that ends in a
space yields a string that ends in a space. -/
theorem joinStrs_ok_lastChar (params : List (String × PValue)) (acc : String)
    (hacc : lastChar acc = some ' ')
    (hok : ∀ p ∈ params, pairError p.1 p.2 = none) :
    lastChar (acc ++ joinStrs (params.map encodePair)) = some ' ' := by
  induction params generalizing acc with
  | nil => simpa [joinStrs, String.append_empty] using hacc
  | cons p rest ih =>
    simp only [List.map_cons, joinStrs]
    rw [← String.append_assoc]
    refine ih (acc ++ encodePair p) ?_ (fun q hq => hok q (List.mem_cons_of_mem _ hq))
    obtain ⟨c, v, hc, hv, -, -, -⟩ :=
      pairError_none_inv p.1 p.2 (hok p (List.mem_cons_self _ _))
    have he : encodePair p =
        (String.singleton p.1.front ++ " " ++ toString (Int.fdiv v c.divider)) ++ " " := by
      simp [encodePair, hc, hv]
    rw [he, ← String.append_assoc]
    exact lastChar_append_space _

/-- A singleton batch is rejected with OutOfRange exactly when the value
violates the inclusive range of its recognized parameter. -/
theorem singleton_outOfRange_iff (key : String) (c : Constraint) (v : Int) (r : String)
    (hc : param_constraints key = some c) :
    ((set_parameters [(key, PValue.int v)] r).fst =
        Except.error (SetError.outOfRange key v)) ↔ ¬ (c.min ≤ v ∧ v ≤ c.max) := by
  constructor
  · intro h hin
    by_cases halign : c.divider ≠ 0 ∧ Int.fmod v c.divider ≠ 0
    · simp [set_parameters, validate_and_encode, hc, hin, halign] at h
    · by_cases hr : pyStrip r = "OK"
      · simp [set_parameters, validate_and_encode, hc, hin, halign, hr] at h
      · simp [set_parameters, validate_and_encode, hc, hin, halign, hr] at h
  · intro hout
    simp [set_parameters, validate_and_encode, hc, hout]

/-- C1: for every recognized parameter and every integer value meeting
its inclusive range and divisibility constraints, `set_parameters` on
that pair is accepted by a device answering OK, and a following
`get_parameter` on the same key returns exactly the original
physical-unit value, assuming the device echoes back the device-unit
value it was sent: its response to the get parses to the transmitted
quotient `Int.fdiv v c.divider`. -/
theorem C1_set_get_roundtrip (key : String) (c : Constraint) (v : Int) (r : String)
    (hc : param_constraints key = some c)
    (h1 : c.min ≤ v) (h2 : v ≤ c.max)
    (hd : Int.fmod v c.divider = 0)
    (hecho : pythonInt (pyStrip r) = some (Int.fdiv v c.divider)) :
    (set_parameters [(key, PValue.int v)] "OK").fst = Except.ok () ∧
    (get_parameter key r).fst = GetOutcome.value v := by
  have hv : Int.fdiv v c.divider * c.divider = v := by
    have h := Int.fdiv_add_fmod v c.divider
    rw [hd, add_zero, mul_comm] at h
    exact h
  have hOK : pyStrip "OK" = "OK" := rfl
  constructor
  · simp [set_parameters, validate_and_encode, hc, h1, h2, hd, hOK]
  · simp [get_parameter, hc, hecho, hv]

/-- C1 witness: offset 10 ns is transmitted as device value 2 and a get
response of 2 yields back 10. -/
theorem C1_witness :
    (set_parameters [("offset", PValue.int 10)] "OK").fst = Except.ok () ∧
    (get_parameter "offset" "2").fst = GetOutcome.value 10 :=
  C1_set_get_roundtrip "offset" ⟨2 * 5, (2 ^ 32 - 1) * 5, 5⟩ 10 "2" rfl (by decide)
    (by decide) (by decide) (by decide)

/-- C2: if any pair of the batch fails validation, `set_parameters`
writes nothing at all to the serial port and raises a validation error
naming the key of an offending pair from the batch. -/
theorem C2_atomic_validation (params : List (String × PValue)) (r : String)
    (h : ∃ p ∈ params, (pairError p.1 p.2).isSome = true) :
    ∃ k v e, (k, v) ∈ params ∧ pairError k v = some e ∧ errKey e = some k ∧
      set_parameters params r = (Except.error e, []) := by
  obtain ⟨k, v, e, hmem, he, hval⟩ := validate_error params "S " h
  exact ⟨k, v, e, hmem, he, pairError_errKey _ _ _ he, by simp [set_parameters, hval]⟩

/-- C2 witness: the batch offset 10, length 11 is rejected with an error
naming length, and nothing is written. -/
theorem C2_witness :
    ∃ k v e, (k, v) ∈ [("offset", PValue.int 10), ("length", PValue.int 11)] ∧
      pairError k v = some e ∧ errKey e = some k ∧
      set_parameters [("offset", PValue.int 10), ("length", PValue.int 11)] "OK" =
        (Except.error e, []) :=
  C2_atomic_validation [("offset", PValue.int 10), ("length", PValue.int 11)] "OK"
    (by decide)

/-- C3 counterexample: on the response abc for the recognized key
offset, `get_parameter` does not raise any error: it prints a message
and returns the sentinel value -1. -/
theorem C3_counterexample :
    (get_parameter "offset" "abc").fst = GetOutcome.malformed "abc" (-1) ∧
    getRaises (get_parameter "offset" "abc").fst = false :=
  ⟨by decide, by decide⟩

/-- C3 amended: for every recognized key, when the stripped response
does not parse as a Python integer, `get_parameter` prints an error
carrying the stripped response text and returns the sentinel value -1
instead of raising an exception. -/
theorem C3_malformed_response (key : String) (c : Constraint) (r : String)
    (hc : param_constraints key = some c)
    (hp : pythonInt (pyStrip r) = none) :
    (get_parameter key r).fst = GetOutcome.malformed (pyStrip r) (-1) ∧
    getRaises (get_parameter key r).fst = false := by
  constructor <;> simp [get_parameter, hc, hp, getRaises]

/-- C3 witness: response abc on a get of offset yields the printed
error and the sentinel -1. -/
theorem C3_witness :
    (get_parameter "offset" "abc").fst = GetOutcome.malformed (pyStrip "abc") (-1) ∧
    getRaises (get_parameter "offset" "abc").fst = false :=
  C3_malformed_response "offset" ⟨2 * 5, (2 ^ 32 - 1) * 5, 5⟩ "abc" rfl (by decide)

/-- C4 counterexample: the transmitted get command for offset is the
string `G o` with no newline, which differs from `G o` followed by a
newline; the transmitted set command for offset 10 is `S o 2 `, whose
last character is a space, not a newline. -/
theorem C4_counterexample :
    (get_parameter "offset" "2").snd = ["G o"] ∧ ("G o" : String) ≠ "G o\n" ∧
    (set_parameters [("offset", PValue.int 10)] "OK").snd = ["S o 2 "] ∧
    lastChar "S o 2 " ≠ some '\n' :=
  ⟨by decide, by decide, rfl, by decide⟩

/-- C4 amended: no command is newline-terminated: the get command is
exactly `G <code>` with no terminator, and every transmitted set
command ends with a space character. -/
theorem C4_commands_unterminated (key : String) (c : Constraint) (r : String)
    (params : List (String × PValue))
    (hc : param_constraints key = some c)
    (hok : ∀ p ∈ params, pairError p.1 p.2 = none) :
    (get_parameter key r).snd = ["G " ++ String.singleton key.front] ∧
    ∃ cmd, (set_parameters params r).snd = [cmd] ∧ lastChar cmd = some ' ' := by
  constructor
  · cases hpi : pythonInt (pyStrip r) <;> simp [get_parameter, hc, hpi]
  · refine ⟨"S " ++ joinStrs (params.map encodePair), ?_, ?_⟩
    · by_cases hr : pyStrip r = "OK" <;>
        simp [set_parameters, validate_ok params "S " hok, hr]
    · exact joinStrs_ok_lastChar params "S " rfl hok

/-- C4 witness: for offset, the get command is `G o` and the set
command for offset 10 ends with a space. -/
theorem C4_witness :
    (get_parameter "offset" "2").snd = ["G " ++ String.singleton "offset".front] ∧
    ∃ cmd, (set_parameters [("offset", PValue.int 10)] "OK").snd = [cmd] ∧
      lastChar cmd = some ' ' :=
  C4_commands_unterminated "offset" ⟨2 * 5, (2 ^ 32 - 1) * 5, 5⟩ "2"
    [("offset", PValue.int 10)] rfl (by decide)

/-- C5: for a batch whose pairs all validate, the transmitted command is
`S ` followed, in insertion order, by the encoding of each pair, and the
encoding of a pair is its key's first letter, a space, the floor
quotient of the value by the divider, and a trailing space. -/
theorem C5_set_command (params : List (String × PValue)) (r : String)
    (hok : ∀ p ∈ params, pairError p.1 p.2 = none) :
    (set_parameters params r).snd = ["S " ++ joinStrs (params.map encodePair)] ∧
    ∀ p ∈ params, ∃ c v, param_constraints p.1 = some c ∧ p.2 = PValue.int v ∧
      encodePair p = String.singleton p.1.front ++ " " ++
        toString (Int.fdiv v c.divider) ++ " " := by
  constructor
  · by_cases hr : pyStrip r = "OK" <;>
      simp [set_parameters, validate_ok params "S " hok, hr]
  · intro p hp
    obtain ⟨c, v, hc, hv, -, -, -⟩ := pairError_none_inv p.1 p.2 (hok p hp)
    exact ⟨c, v, hc, hv, by simp [encodePair, hc, hv]⟩

/-- C5 witness: the batch offset 10, repeats 3 transmits the command
`S o 2 r 3 `. -/
theorem C5_witness :
    (set_parameters [("offset", PValue.int 10), ("repeats", PValue.int 3)] "OK").snd =
      ["S " ++ joinStrs ([("offset", PValue.int 10), ("repeats", PValue.int 3)].map
        encodePair)] ∧
    ∀ p ∈ [("offset", PValue.int 10), ("repeats", PValue.int 3)],
      ∃ c v, param_constraints p.1 = some c ∧ p.2 = PValue.int v ∧
        encodePair p = String.singleton p.1.front ++ " " ++
          toString (Int.fdiv v c.divider) ++ " " :=
  C5_set_command [("offset", PValue.int 10), ("repeats", PValue.int 3)] "OK" (by decide)

/-- C6: a singleton batch is rejected with OutOfRange exactly when the
value lies outside the declared inclusive range, namely 10 to
(2 to the 32 minus 1) times 5 for offset, 5 to (2 to the 7 minus 1)
times 5 for length, 36 to (2 to the 20 minus 1) times 5 for spacing,
and 0 to 31 for repeats; in particular offset 5 and repeats 32 are
rejected as out of range. -/
theorem C6_out_of_range (v : Int) (r : String) :
    (((set_parameters [("offset", PValue.int v)] r).fst =
        Except.error (SetError.outOfRange "offset" v)) ↔
      ¬ (10 ≤ v ∧ v ≤ (2 ^ 32 - 1) * 5)) ∧
    (((set_parameters [("length", PValue.int v)] r).fst =
        Except.error (SetError.outOfRange "length" v)) ↔
      ¬ (5 ≤ v ∧ v ≤ (2 ^ 7 - 1) * 5)) ∧
    (((set_parameters [("spacing", PValue.int v)] r).fst =
        Except.error (SetError.outOfRange "spacing" v)) ↔
      ¬ (36 ≤ v ∧ v ≤ (2 ^ 20 - 1) * 5)) ∧
    (((set_parameters [("repeats", PValue.int v)] r).fst =
        Except.error (SetError.outOfRange "repeats" v)) ↔
      ¬ (0 ≤ v ∧ v ≤ 31)) ∧
    (set_parameters [("offset", PValue.int 5)] r).fst =
      Except.error (SetError.outOfRange "offset" 5) ∧
    (set_parameters [("repeats", PValue.int 32)] r).fst =
      Except.error (SetError.outOfRange "repeats" 32) := by
  refine ⟨?_, ?_, ?_, ?_, ?_, ?_⟩
  · exact singleton_outOfRange_iff "offset" ⟨10, (2 ^ 32 - 1) * 5, 5⟩ v r (by decide)
  · exact singleton_outOfRange_iff "length" ⟨5, (2 ^ 7 - 1) * 5, 5⟩ v r (by decide)
  · exact singleton_outOfRange_iff "spacing" ⟨36, (2 ^ 20 - 1) * 5, 5⟩ v r (by decide)
  · exact singleton_outOfRange_iff "repeats" ⟨0, 31, 1⟩ v r (by decide)
  · exact (singleton_outOfRange_iff "offset" ⟨10, (2 ^ 32 - 1) * 5, 5⟩ 5 r
      (by decide)).mpr (by decide)
  · exact (singleton_outOfRange_iff "repeats" ⟨0, 31, 1⟩ 32 r (by decide)).mpr (by decide)

/-- C7: an in-range value that is not divisible by its parameter's
divider is rejected with NotAligned and nothing is transmitted. -/
theorem C7_not_aligned (key : String) (c : Constraint) (v : Int) (r : String)
    (hc : param_constraints key = some c)
    (h1 : c.min ≤ v) (h2 : v ≤ c.max)
    (hd : Int.fmod v c.divider ≠ 0) :
    set_parameters [(key, PValue.int v)] r =
      (Except.error (SetError.notAligned key v), []) := by
  have hdz := divider_ne_zero key c hc
  simp [set_parameters, validate_and_encode, hc, h1, h2, hd, hdz]

/-- C7 witness: offset 11 is in range but misaligned, so the batch fails
with NotAligned and nothing is written. -/
theorem C7_witness :
    set_parameters [("offset", PValue.int 11)] "OK" =
      (Except.error (SetError.notAligned "offset" 11), []) :=
  C7_not_aligned "offset" ⟨2 * 5, (2 ^ 32 - 1) * 5, 5⟩ 11 "OK" rfl (by decide) (by decide)
    (by decide)

/-- C8: an unrecognized key makes `get_parameter` raise InvalidParameter
before transmitting anything, rather than returning a sentinel. -/
theorem C8_invalid_get_key (key : String) (r : String)
    (hk : param_constraints key = none) :
    get_parameter key r = (GetOutcome.invalidParameter key, []) ∧
    getRaises (get_parameter key r).fst = true := by
  constructor <;> simp [get_parameter, hk, getRaises]

/-- C8 witness: getting the key bogus raises InvalidParameter and writes
nothing. -/
theorem C8_witness :
    get_parameter "bogus" "0" = (GetOutcome.invalidParameter "bogus", []) ∧
    getRaises (get_parameter "bogus" "0").fst = true :=
  C8_invalid_get_key "bogus" "0" (by decide)

/-- C9: once a batch passes validation, the command is transmitted and
the outcome depends only on the stripped response: success exactly when
it is OK, and otherwise a DeviceRejected error carrying the stripped
response text together with the command that was sent. -/
theorem C9_device_response (params : List (String × PValue)) (r : String)
    (hok : ∀ p ∈ params, pairError p.1 p.2 = none) :
    ((set_parameters params r).fst = Except.ok () ↔ pyStrip r = "OK") ∧
    (pyStrip r ≠ "OK" →
      set_parameters params r =
        (Except.error (SetError.deviceRejected (pyStrip r)
            ("S " ++ joinStrs (params.map encodePair))),
          ["S " ++ joinStrs (params.map encodePair)])) := by
  have hval := validate_ok params "S " hok
  by_cases hr : pyStrip r = "OK"
  · exact ⟨by simp [set_parameters, hval, hr], fun h => absurd hr h⟩
  · exact ⟨by simp [set_parameters, hval, hr], fun _ => by simp [set_parameters, hval, hr]⟩

/-- C9 witness: the valid batch offset 10 answered with ERR bad value
fails with DeviceRejected carrying that response and the command. -/
theorem C9_witness :
    ((set_parameters [("offset", PValue.int 10)] "ERR bad value").fst = Except.ok () ↔
      pyStrip "ERR bad value" = "OK") ∧
    (pyStrip "ERR bad value" ≠ "OK" →
      set_parameters [("offset", PValue.int 10)] "ERR bad value" =
        (Except.error (SetError.deviceRejected (pyStrip "ERR bad value")
            ("S " ++ joinStrs ([("offset", PValue.int 10)].map encodePair))),
          ["S " ++ joinStrs ([("offset", PValue.int 10)].map encodePair)])) :=
  C9_device_response [("offset", PValue.int 10)] "ERR bad value" (by decide)

/-- C10: an empty batch is not rejected locally: the bare command `S `
is transmitted, and the call succeeds exactly when the stripped
response is OK. -/
theorem C10_empty_batch (r : String) :
    (set_parameters [] r).snd = ["S "] ∧
    ((set_parameters [] r).fst = Except.ok () ↔ pyStrip r = "OK") := by
  by_cases hr : pyStrip r = "OK" <;>
    simp [set_parameters, validate_and_encode, hr]

end PicoPulse
